import Mathlib

/-!
Verification of the `compact_bool` library (src/compact_bool.py).

The Python class `CompactBoolMatrix` stores an `og_size × og_size` boolean
matrix in a packed `new_size × new_size` grid of small integers, where
`new_size = ceil(og_size / 2)`; each packed cell encodes the boolean values of
up to four logical cells (one per "domain") through fixed 16-entry lookup
tables.  This file is a shallow embedding of that class: the mutable object
becomes explicit state passing on the structure `CompactBoolMatrix`, Python
exceptions become `Except PyErr`, and Python sequence indexing (including its
negative-index wraparound, which the source exercises) is modelled by `pyIdx`.
-/

namespace CompactBool

/-- Errors the Python source can raise: `outOfBound` is the `OutOfBound`
exception class declared in the source; `valueError` models the `ValueError`
raised by ctypes when an array type is built with a negative length (reachable
from `__init__` when `ceil(size / 2) < 0`); `indexError` models Python's
`IndexError` for a sequence index outside `[-len, len)`. -/
inductive PyErr where
  | outOfBound
  | valueError
  | indexError
deriving DecidableEq

/-- State of a `CompactBoolMatrix` object.  `og_size` and `new_size` mirror the
`og_size` / `new_size` fields of the inner ctypes struct (`c_int32`; the claims
only exercise sizes far below 2^31, so 32-bit truncation is not modelled), and
`matrix` is the packed cell store, meaningful at indices below `new_size`.
Packed cells are modelled as `Nat`: every value the source ever stores is a
table entry or fill value in `0..15` (the `c_int8` slot is never driven outside
that range by the code). -/
structure CompactBoolMatrix where
  og_size : Int
  new_size : Nat
  matrix : Nat → Nat → Nat

/-- Python's `math.ceil(size / 2)` on an integer `size`:
`⌈size / 2⌉ = ⌊(size + 1) / 2⌋`, floor division. -/
def ceilHalf (size : Int) : Int := (size + 1).fdiv 2

/-- `__init__`: computes `new_size = ceil(size / 2)`, then builds the ctypes
struct whose fields are zero-initialized; building the array type
`(c_int8 * new_size) * new_size` raises `ValueError` when `new_size < 0`. -/
def CompactBoolMatrix.init (size : Int) : Except PyErr CompactBoolMatrix :=
  if ceilHalf size < 0 then .error .valueError
  else .ok { og_size := size, new_size := (ceilHalf size).toNat, matrix := fun _ _ => 0 }

/-- Python sequence indexing on a sequence of length `len`: an index in
`[0, len)` is used directly, an index in `[-len, 0)` wraps by adding `len`,
anything else raises `IndexError`.  ctypes arrays follow exactly this rule. -/
def pyIdx (len : Nat) (i : Int) : Except PyErr Nat :=
  if 0 ≤ i ∧ i < (len : Int) then .ok i.toNat
  else if -(len : Int) ≤ i ∧ i < 0 then .ok (i + (len : Int)).toNat
  else .error .indexError

/-- Read `self.matrix.matrix[i][j]` (Python indexing on both axes). -/
def CompactBoolMatrix.read (m : CompactBoolMatrix) (i j : Int) : Except PyErr Nat := do
  let a ← pyIdx m.new_size i
  let b ← pyIdx m.new_size j
  pure (m.matrix a b)

/-- Functional update of one packed cell (already-resolved nonnegative
indices). -/
def updateCell (m : CompactBoolMatrix) (a b v : Nat) : CompactBoolMatrix :=
  { m with matrix := fun p q => if p = a ∧ q = b then v else m.matrix p q }

/-- Write `self.matrix.matrix[i][j] = v` (Python indexing on both axes). -/
def CompactBoolMatrix.write (m : CompactBoolMatrix) (i j : Int) (v : Nat) :
    Except PyErr CompactBoolMatrix := do
  let a ← pyIdx m.new_size i
  let b ← pyIdx m.new_size j
  pure (updateCell m a b v)

/-- Lookup `t[v]` on a Python list literal `t` with a nonnegative index `v`
(the source only ever indexes the 16-entry tables with a stored packed value,
which in this model is a `Nat`); out-of-range raises `IndexError`. -/
def tableLookup {α : Type} (t : List α) (v : Nat) : Except PyErr α :=
  match t.get? v with
  | some a => .ok a
  | none => .error .indexError

/-- `__get_domain`: raises `OutOfBound` when `x >= og_size or y >= og_size`,
otherwise classifies by the chained comparisons of the source
(`x < s and y < s` / `x > s > y` / `x < s < y` / else), `s = new_size`. -/
def CompactBoolMatrix.get_domain (m : CompactBoolMatrix) (x y : Int) : Except PyErr Nat :=
  if m.og_size ≤ x ∨ m.og_size ≤ y then .error .outOfBound
  else if x < (m.new_size : Int) ∧ y < (m.new_size : Int) then .ok 0
  else if (m.new_size : Int) < x ∧ y < (m.new_size : Int) then .ok 1
  else if x < (m.new_size : Int) ∧ (m.new_size : Int) < y then .ok 2
  else .ok 3

/-- `__get_compact_val`: reads the packed slot for the given domain,
`s = new_size`. -/
def CompactBoolMatrix.get_compact_val (m : CompactBoolMatrix) (x y : Int) (domain : Nat) :
    Except PyErr Nat :=
  if domain = 0 then m.read x y
  else if domain = 1 then m.read (x - (m.new_size : Int)) y
  else if domain = 2 then m.read x (y - (m.new_size : Int))
  else m.read (x - (m.new_size : Int)) (y - (m.new_size : Int))

/-- `set_false`: per-domain 16-entry transition table applied to the current
packed value, result written back to the branch's slot. -/
def CompactBoolMatrix.set_false (m : CompactBoolMatrix) (x y : Int) :
    Except PyErr CompactBoolMatrix := do
  let domain ← m.get_domain x y
  if domain = 0 then
    let val ← m.get_compact_val x y domain
    let v ← tableLookup [0, 0, 2, 3, 4, 2, 3, 4, 8, 9, 10, 8, 9, 10, 14, 14] val
    m.write x y v
  else if domain = 1 then
    let val ← m.get_compact_val x y domain
    let v ← tableLookup [0, 1, 0, 3, 4, 1, 6, 7, 3, 4, 10, 6, 7, 13, 10, 13] val
    m.write (x - (m.new_size : Int)) y v
  else if domain = 2 then
    let val ← m.get_compact_val x y domain
    let v ← tableLookup [0, 1, 2, 0, 4, 5, 1, 7, 2, 9, 4, 5, 12, 7, 9, 12] val
    m.write x (y - (m.new_size : Int)) v
  else
    let val ← m.get_compact_val x y domain
    let v ← tableLookup [0, 1, 2, 3, 0, 5, 6, 1, 8, 2, 3, 11, 5, 6, 8, 11] val
    m.write (x - (m.new_size : Int)) (y - (m.new_size : Int)) v

/-- `set_true`: per-domain 16-entry transition table applied to the current
packed value, result written back to the branch's slot. -/
def CompactBoolMatrix.set_true (m : CompactBoolMatrix) (x y : Int) :
    Except PyErr CompactBoolMatrix := do
  let domain ← m.get_domain x y
  if domain = 0 then
    let val ← m.get_compact_val x y domain
    let v ← tableLookup [1, 1, 5, 6, 7, 5, 6, 7, 11, 12, 13, 11, 12, 13, 15, 15] val
    m.write x y v
  else if domain = 1 then
    let val ← m.get_compact_val x y domain
    let v ← tableLookup [2, 5, 2, 8, 9, 5, 11, 12, 8, 9, 14, 11, 12, 15, 14, 15] val
    m.write (x - (m.new_size : Int)) y v
  else if domain = 2 then
    let val ← m.get_compact_val x y domain
    let v ← tableLookup [3, 6, 8, 3, 10, 11, 6, 13, 8, 14, 10, 11, 15, 13, 14, 15] val
    m.write x (y - (m.new_size : Int)) v
  else
    let val ← m.get_compact_val x y domain
    let v ← tableLookup [4, 7, 9, 10, 4, 12, 13, 7, 14, 9, 10, 15, 12, 13, 14, 15] val
    m.write (x - (m.new_size : Int)) (y - (m.new_size : Int)) v

/-- `get`: per-domain 16-entry truth table applied to the current packed
value. -/
def CompactBoolMatrix.get (m : CompactBoolMatrix) (x y : Int) : Except PyErr Bool := do
  let domain ← m.get_domain x y
  if domain = 0 then
    let val ← m.get_compact_val x y domain
    tableLookup [false, true, false, false, false, true, true, true,
                 false, false, false, true, true, true, false, true] val
  else if domain = 1 then
    let val ← m.get_compact_val x y domain
    tableLookup [false, false, true, false, false, true, false, false,
                 true, true, false, true, true, false, true, true] val
  else if domain = 2 then
    let val ← m.get_compact_val x y domain
    tableLookup [false, false, false, true, false, false, true, false,
                 true, false, true, true, false, true, true, true] val
  else
    let val ← m.get_compact_val x y domain
    tableLookup [false, false, false, false, true, false, false, true,
                 false, true, true, false, true, true, true, true] val

/-- `switch`: toggles a cell by reading it and calling the opposite setter. -/
def CompactBoolMatrix.switch (m : CompactBoolMatrix) (x y : Int) :
    Except PyErr CompactBoolMatrix := do
  let b ← m.get x y
  if b = true then m.set_false x y else m.set_true x y

/-- `all_false`: writes 0 into every packed cell (both loop indices range over
`[0, new_size)`). -/
def CompactBoolMatrix.all_false (m : CompactBoolMatrix) : CompactBoolMatrix :=
  { m with matrix := fun i j => if i < m.new_size ∧ j < m.new_size then 0 else m.matrix i j }

/-- `all_true`: writes 15 into every packed cell. -/
def CompactBoolMatrix.all_true (m : CompactBoolMatrix) : CompactBoolMatrix :=
  { m with matrix := fun i j => if i < m.new_size ∧ j < m.new_size then 15 else m.matrix i j }

/-- Python's `range(n)` as a list of integers (empty when `n ≤ 0`). -/
def intRange (n : Int) : List Int := (List.range n.toNat).map (fun k => (k : Int))

/-- `compact_to_normal`: the dense `og_size × og_size` boolean matrix obtained
by calling `get` at every coordinate in row-major order (the `False`
pre-initialization of `res` is immediately overwritten, so only the `get`
results remain). -/
def CompactBoolMatrix.compact_to_normal (m : CompactBoolMatrix) :
    Except PyErr (List (List Bool)) :=
  (intRange m.og_size).mapM (fun i => (intRange m.og_size).mapM (fun j => m.get i j))

/-- The demo driver under `__main__`: size 5, `all_false`, seven `switch`
calls and two `set_true` calls. -/
def demoMat : Except PyErr CompactBoolMatrix :=
  (CompactBoolMatrix.init 5).bind fun m =>
  ((m.all_false).switch 2 0).bind fun m =>
  (m.switch 2 1).bind fun m =>
  (m.switch 0 2).bind fun m =>
  (m.switch 1 2).bind fun m =>
  (m.switch 3 2).bind fun m =>
  (m.switch 4 2).bind fun m =>
  (m.switch 2 2).bind fun m =>
  (m.set_true 2 3).bind fun m =>
  m.set_true 2 4

/-- The four `set_true` transition tables of the source, by domain id. -/
def stT (d : Nat) : List Nat :=
  if d = 0 then [1, 1, 5, 6, 7, 5, 6, 7, 11, 12, 13, 11, 12, 13, 15, 15]
  else if d = 1 then [2, 5, 2, 8, 9, 5, 11, 12, 8, 9, 14, 11, 12, 15, 14, 15]
  else if d = 2 then [3, 6, 8, 3, 10, 11, 6, 13, 8, 14, 10, 11, 15, 13, 14, 15]
  else [4, 7, 9, 10, 4, 12, 13, 7, 14, 9, 10, 15, 12, 13, 14, 15]

/-- The four `set_false` transition tables of the source, by domain id. -/
def sfT (d : Nat) : List Nat :=
  if d = 0 then [0, 0, 2, 3, 4, 2, 3, 4, 8, 9, 10, 8, 9, 10, 14, 14]
  else if d = 1 then [0, 1, 0, 3, 4, 1, 6, 7, 3, 4, 10, 6, 7, 13, 10, 13]
  else if d = 2 then [0, 1, 2, 0, 4, 5, 1, 7, 2, 9, 4, 5, 12, 7, 9, 12]
  else [0, 1, 2, 3, 0, 5, 6, 1, 8, 2, 3, 11, 5, 6, 8, 11]

/-- The four `get` truth tables of the source, by domain id. -/
def decT (d : Nat) : List Bool :=
  if d = 0 then [false, true, false, false, false, true, true, true,
                 false, false, false, true, true, true, false, true]
  else if d = 1 then [false, false, true, false, false, true, false, false,
                      true, true, false, true, true, false, true, true]
  else if d = 2 then [false, false, false, true, false, false, true, false,
                      true, false, true, true, false, true, true, true]
  else [false, false, false, false, true, false, false, true,
        false, true, true, false, true, true, true, true]

/-- Lookup result of a transition table, with default 0 (used only below the
table length, where the default is irrelevant). -/
def stV (d v : Nat) : Nat := (stT d).getD v 0

/-- Lookup result of a `set_false` table. -/
def sfV (d v : Nat) : Nat := (sfT d).getD v 0

/-- Lookup result of a truth table. -/
def decV (d v : Nat) : Bool := (decT d).getD v false

/-- Well-formedness of the packed store: every slot holds a value in
`[0, 15]`.  This is the spec's packed-cell invariant. -/
def StoreWF (m : CompactBoolMatrix) : Prop := ∀ i j, m.matrix i j ≤ 15

/-- Matrix states reachable from construction by the public operations. -/
inductive Reachable : CompactBoolMatrix → Prop where
  | init : ∀ (size : Int) (m : CompactBoolMatrix),
      CompactBoolMatrix.init size = .ok m → Reachable m
  | set_true : ∀ (m : CompactBoolMatrix) (x y : Int) (m' : CompactBoolMatrix),
      Reachable m → m.set_true x y = .ok m' → Reachable m'
  | set_false : ∀ (m : CompactBoolMatrix) (x y : Int) (m' : CompactBoolMatrix),
      Reachable m → m.set_false x y = .ok m' → Reachable m'
  | switch : ∀ (m : CompactBoolMatrix) (x y : Int) (m' : CompactBoolMatrix),
      Reachable m → m.switch x y = .ok m' → Reachable m'
  | all_true : ∀ (m : CompactBoolMatrix), Reachable m → Reachable m.all_true
  | all_false : ∀ (m : CompactBoolMatrix), Reachable m → Reachable m.all_false

end CompactBool

namespace CompactBool

instance {ε α : Type} [DecidableEq ε] [DecidableEq α] : DecidableEq (Except ε α) := fun a b =>
  match a, b with
  | .error e, .error f =>
    if h : e = f then isTrue (congrArg Except.error h)
    else isFalse (fun hh => h (Except.error.inj hh))
  | .error _, .ok _ => isFalse (fun hh => Except.noConfusion hh)
  | .ok _, .error _ => isFalse (fun hh => Except.noConfusion hh)
  | .ok u, .ok w =>
    if h : u = w then isTrue (congrArg Except.ok h)
    else isFalse (fun hh => h (Except.ok.inj hh))

lemma except_bind_ok {α β : Type} (a : α) (f : α → Except PyErr β) :
    ((Except.ok a : Except PyErr α) >>= f) = f a := rfl

lemma except_bind_error {α β : Type} (e : PyErr) (f : α → Except PyErr β) :
    ((Except.error e : Except PyErr α) >>= f) = .error e := rfl

lemma except_map_ok {α β : Type} (a : α) (f : α → β) :
    (Except.ok a : Except PyErr α).map f = .ok (f a) := rfl

lemma pyIdx_in (len : Nat) (i : Int) (h1 : -(len : Int) ≤ i) (h2 : i < (len : Int)) :
    ∃ k, k < len ∧ pyIdx len i = .ok k := by
  unfold pyIdx
  by_cases h : 0 ≤ i ∧ i < (len : Int)
  · exact ⟨i.toNat, by omega, by rw [if_pos h]⟩
  · have h' : -(len : Int) ≤ i ∧ i < 0 := by omega
    exact ⟨(i + (len : Int)).toNat, by omega, by rw [if_neg h, if_pos h']⟩

lemma table_facts :
    ∀ d, d < 4 → ∀ v, v < 16 →
      tableLookup (decT d) v = .ok (decV d v) ∧
      tableLookup (stT d) v = .ok (stV d v) ∧
      tableLookup (sfT d) v = .ok (sfV d v) ∧
      stV d v < 16 ∧ sfV d v < 16 ∧
      decV d (stV d v) = true ∧ decV d (sfV d v) = false := by decide

lemma dec_fill : ∀ d, d < 4 →
    tableLookup (decT d) 15 = .ok true ∧ tableLookup (decT d) 0 = .ok false := by decide

lemma st_mem_le : ∀ d, d < 4 → ∀ v ∈ stT d, v ≤ 15 := by decide

lemma sf_mem_le : ∀ d, d < 4 → ∀ v ∈ sfT d, v ≤ 15 := by decide

end CompactBool

namespace CompactBool

lemma except_pure {α : Type} (a : α) : (pure a : Except PyErr α) = .ok a := rfl

lemma bind_write_eq_map (m : CompactBoolMatrix) (x y : Int) (i j : Nat) (t : Except PyErr Nat)
    (hpi : pyIdx m.new_size x = .ok i) (hpj : pyIdx m.new_size y = .ok j) :
    (t >>= fun v => m.write x y v) = t.map (updateCell m i j) := by
  cases t with
  | error e => rfl
  | ok v =>
    rw [except_bind_ok]
    unfold CompactBoolMatrix.write
    rw [hpi, except_bind_ok, hpj, except_bind_ok]
    rfl

lemma routeSpec (og : Int) (s : Nat) (x y : Int)
    (hog : og ≤ 2 * (s : Int))
    (hx0 : 0 ≤ x) (hx1 : x < og) (hy0 : 0 ≤ y) (hy1 : y < og) :
    ∃ d i j, d < 4 ∧ i < s ∧ j < s ∧
      ∀ M : Nat → Nat → Nat,
        (CompactBoolMatrix.mk og s M).get x y = tableLookup (decT d) (M i j) ∧
        (CompactBoolMatrix.mk og s M).set_true x y =
          (tableLookup (stT d) (M i j)).map (updateCell (CompactBoolMatrix.mk og s M) i j) ∧
        (CompactBoolMatrix.mk og s M).set_false x y =
          (tableLookup (sfT d) (M i j)).map (updateCell (CompactBoolMatrix.mk og s M) i j) := by
  by_cases hA : x < (s : Int) ∧ y < (s : Int)
  · obtain ⟨i, hi, hpi⟩ := pyIdx_in s x (by omega) hA.1
    obtain ⟨j, hj, hpj⟩ := pyIdx_in s y (by omega) hA.2
    refine ⟨0, i, j, by omega, hi, hj, fun M => ?_⟩
    have hdom : (CompactBoolMatrix.mk og s M).get_domain x y = .ok 0 := by
      unfold CompactBoolMatrix.get_domain
      dsimp only
      rw [if_neg (by omega), if_pos hA]
    refine ⟨?_, ?_, ?_⟩
    · simp only [CompactBoolMatrix.get, hdom, except_bind_ok,
        CompactBoolMatrix.get_compact_val, CompactBoolMatrix.read, except_pure,
        hpi, hpj, decT]
      rfl
    · simp only [CompactBoolMatrix.set_true, hdom, except_bind_ok,
        CompactBoolMatrix.get_compact_val, CompactBoolMatrix.read, except_pure,
        hpi, hpj, stT]
      exact bind_write_eq_map (CompactBoolMatrix.mk og s M) x y i j _ hpi hpj
    · simp only [CompactBoolMatrix.set_false, hdom, except_bind_ok,
        CompactBoolMatrix.get_compact_val, CompactBoolMatrix.read, except_pure,
        hpi, hpj, sfT]
      exact bind_write_eq_map (CompactBoolMatrix.mk og s M) x y i j _ hpi hpj
  · by_cases hB : (s : Int) < x ∧ y < (s : Int)
    · obtain ⟨i, hi, hpi⟩ := pyIdx_in s (x - (s : Int)) (by omega) (by omega)
      obtain ⟨j, hj, hpj⟩ := pyIdx_in s y (by omega) hB.2
      refine ⟨1, i, j, by omega, hi, hj, fun M => ?_⟩
      have hdom : (CompactBoolMatrix.mk og s M).get_domain x y = .ok 1 := by
        unfold CompactBoolMatrix.get_domain
        dsimp only
        rw [if_neg (by omega), if_neg hA, if_pos hB]
      refine ⟨?_, ?_, ?_⟩
      · simp only [CompactBoolMatrix.get, hdom, except_bind_ok,
          CompactBoolMatrix.get_compact_val, CompactBoolMatrix.read, except_pure,
          hpi, hpj, decT]
        rfl
      · simp only [CompactBoolMatrix.set_true, hdom, except_bind_ok,
          CompactBoolMatrix.get_compact_val, CompactBoolMatrix.read, except_pure,
          hpi, hpj, stT]
        exact bind_write_eq_map (CompactBoolMatrix.mk og s M) (x - (s : Int)) y i j _ hpi hpj
      · simp only [CompactBoolMatrix.set_false, hdom, except_bind_ok,
          CompactBoolMatrix.get_compact_val, CompactBoolMatrix.read, except_pure,
          hpi, hpj, sfT]
        exact bind_write_eq_map (CompactBoolMatrix.mk og s M) (x - (s : Int)) y i j _ hpi hpj
    · by_cases hC : x < (s : Int) ∧ (s : Int) < y
      · obtain ⟨i, hi, hpi⟩ := pyIdx_in s x (by omega) hC.1
        obtain ⟨j, hj, hpj⟩ := pyIdx_in s (y - (s : Int)) (by omega) (by omega)
        refine ⟨2, i, j, by omega, hi, hj, fun M => ?_⟩
        have hdom : (CompactBoolMatrix.mk og s M).get_domain x y = .ok 2 := by
          unfold CompactBoolMatrix.get_domain
          dsimp only
          rw [if_neg (by omega), if_neg hA, if_neg hB, if_pos hC]
        refine ⟨?_, ?_, ?_⟩
        · simp only [CompactBoolMatrix.get, hdom, except_bind_ok,
            CompactBoolMatrix.get_compact_val, CompactBoolMatrix.read, except_pure,
            hpi, hpj, decT]
          rfl
        · simp only [CompactBoolMatrix.set_true, hdom, except_bind_ok,
            CompactBoolMatrix.get_compact_val, CompactBoolMatrix.read, except_pure,
            hpi, hpj, stT]
          exact bind_write_eq_map (CompactBoolMatrix.mk og s M) x (y - (s : Int)) i j _ hpi hpj
        · simp only [CompactBoolMatrix.set_false, hdom, except_bind_ok,
            CompactBoolMatrix.get_compact_val, CompactBoolMatrix.read, except_pure,
            hpi, hpj, sfT]
          exact bind_write_eq_map (CompactBoolMatrix.mk og s M) x (y - (s : Int)) i j _ hpi hpj
      · obtain ⟨i, hi, hpi⟩ := pyIdx_in s (x - (s : Int)) (by omega) (by omega)
        obtain ⟨j, hj, hpj⟩ := pyIdx_in s (y - (s : Int)) (by omega) (by omega)
        refine ⟨3, i, j, by omega, hi, hj, fun M => ?_⟩
        have hdom : (CompactBoolMatrix.mk og s M).get_domain x y = .ok 3 := by
          unfold CompactBoolMatrix.get_domain
          dsimp only
          rw [if_neg (by omega), if_neg hA, if_neg hB, if_neg hC]
        refine ⟨?_, ?_, ?_⟩
        · simp only [CompactBoolMatrix.get, hdom, except_bind_ok,
            CompactBoolMatrix.get_compact_val, CompactBoolMatrix.read, except_pure,
            hpi, hpj, decT]
          rfl
        · simp only [CompactBoolMatrix.set_true, hdom, except_bind_ok,
            CompactBoolMatrix.get_compact_val, CompactBoolMatrix.read, except_pure,
            hpi, hpj, stT]
          exact bind_write_eq_map (CompactBoolMatrix.mk og s M) (x - (s : Int)) (y - (s : Int)) i j _ hpi hpj
        · simp only [CompactBoolMatrix.set_false, hdom, except_bind_ok,
            CompactBoolMatrix.get_compact_val, CompactBoolMatrix.read, except_pure,
            hpi, hpj, sfT]
          exact bind_write_eq_map (CompactBoolMatrix.mk og s M) (x - (s : Int)) (y - (s : Int)) i j _ hpi hpj

end CompactBool

namespace CompactBool

lemma switch_run (m : CompactBoolMatrix) (x y : Int) (b : Bool)
    (hget : m.get x y = .ok b) :
    m.switch x y = if b = true then m.set_false x y else m.set_true x y := by
  unfold CompactBoolMatrix.switch
  rw [hget, except_bind_ok]

/-- Claim C3: on any well-formed matrix and any in-range logical coordinate,
`set_true` immediately followed by `get` returns true, and `set_false`
immediately followed by `get` returns false. -/
theorem C3_set_then_get (m : CompactBoolMatrix) (x y : Int)
    (hwf : StoreWF m) (hog : m.og_size ≤ 2 * (m.new_size : Int))
    (hx0 : 0 ≤ x) (hx1 : x < m.og_size) (hy0 : 0 ≤ y) (hy1 : y < m.og_size) :
    (∃ m1, m.set_true x y = .ok m1 ∧ m1.get x y = .ok true) ∧
    (∃ m1, m.set_false x y = .ok m1 ∧ m1.get x y = .ok false) := by
  obtain ⟨d, i, j, hd, hi, hj, hspec⟩ :=
    routeSpec m.og_size m.new_size x y hog hx0 hx1 hy0 hy1
  have hv : m.matrix i j < 16 := by have := hwf i j; omega
  have tf := table_facts d hd (m.matrix i j) hv
  constructor
  · refine ⟨updateCell m i j (stV d (m.matrix i j)), ?_, ?_⟩
    · have h1 := (hspec m.matrix).2.1
      rw [tf.2.1, except_map_ok] at h1
      exact h1
    · have h2 := (hspec (updateCell m i j (stV d (m.matrix i j))).matrix).1
      have hm1 : (updateCell m i j (stV d (m.matrix i j))).matrix i j
          = stV d (m.matrix i j) := by simp [updateCell]
      rw [hm1] at h2
      have tf2 := table_facts d hd (stV d (m.matrix i j)) tf.2.2.2.1
      rw [tf2.1, tf.2.2.2.2.2.1] at h2
      exact h2
  · refine ⟨updateCell m i j (sfV d (m.matrix i j)), ?_, ?_⟩
    · have h1 := (hspec m.matrix).2.2
      rw [tf.2.2.1, except_map_ok] at h1
      exact h1
    · have h2 := (hspec (updateCell m i j (sfV d (m.matrix i j))).matrix).1
      have hm1 : (updateCell m i j (sfV d (m.matrix i j))).matrix i j
          = sfV d (m.matrix i j) := by simp [updateCell]
      rw [hm1] at h2
      have tf2 := table_facts d hd (sfV d (m.matrix i j)) tf.2.2.2.2.1
      rw [tf2.1, tf.2.2.2.2.2.2] at h2
      exact h2

/-- Claim C7: after `all_true` (which writes 15 into every packed cell) `get`
returns true at every in-range logical coordinate, and after `all_false`
(which writes 0 everywhere) it returns false. -/
theorem C7_fill_all (m : CompactBoolMatrix) (x y : Int)
    (hog : m.og_size ≤ 2 * (m.new_size : Int))
    (hx0 : 0 ≤ x) (hx1 : x < m.og_size) (hy0 : 0 ≤ y) (hy1 : y < m.og_size) :
    m.all_true.get x y = .ok true ∧ m.all_false.get x y = .ok false := by
  obtain ⟨d, i, j, hd, hi, hj, hspec⟩ :=
    routeSpec m.og_size m.new_size x y hog hx0 hx1 hy0 hy1
  constructor
  · have h1 := (hspec m.all_true.matrix).1
    have hm : m.all_true.matrix i j = 15 := by
      simp [CompactBoolMatrix.all_true, hi, hj]
    rw [hm, (dec_fill d hd).1] at h1
    exact h1
  · have h1 := (hspec m.all_false.matrix).1
    have hm : m.all_false.matrix i j = 0 := by
      simp [CompactBoolMatrix.all_false, hi, hj]
    rw [hm, (dec_fill d hd).2] at h1
    exact h1

/-- Claim C8: two consecutive `switch` (toggle) calls at an in-range
coordinate return `get` to the boolean it had before. -/
theorem C8_toggle_twice (m : CompactBoolMatrix) (x y : Int)
    (hwf : StoreWF m) (hog : m.og_size ≤ 2 * (m.new_size : Int))
    (hx0 : 0 ≤ x) (hx1 : x < m.og_size) (hy0 : 0 ≤ y) (hy1 : y < m.og_size) :
    ∃ b m1 m2, m.get x y = .ok b ∧ m.switch x y = .ok m1 ∧
      m1.switch x y = .ok m2 ∧ m2.get x y = .ok b := by
  obtain ⟨d, i, j, hd, hi, hj, hspec⟩ :=
    routeSpec m.og_size m.new_size x y hog hx0 hx1 hy0 hy1
  have hv : m.matrix i j < 16 := by have := hwf i j; omega
  have tf := table_facts d hd (m.matrix i j) hv
  have hget : m.get x y = .ok (decV d (m.matrix i j)) := by
    have h1 := (hspec m.matrix).1
    rw [tf.1] at h1
    exact h1
  by_cases hb : decV d (m.matrix i j) = true
  · have hm1 : (updateCell m i j (sfV d (m.matrix i j))).matrix i j
        = sfV d (m.matrix i j) := by simp [updateCell]
    have tf2 := table_facts d hd (sfV d (m.matrix i j)) tf.2.2.2.2.1
    have hm2 : (updateCell (updateCell m i j (sfV d (m.matrix i j))) i j
        (stV d (sfV d (m.matrix i j)))).matrix i j
        = stV d (sfV d (m.matrix i j)) := by simp [updateCell]
    have tf3 := table_facts d hd (stV d (sfV d (m.matrix i j))) tf2.2.2.2.1
    refine ⟨true, updateCell m i j (sfV d (m.matrix i j)),
      updateCell (updateCell m i j (sfV d (m.matrix i j))) i j
        (stV d (sfV d (m.matrix i j))), ?_, ?_, ?_, ?_⟩
    · rw [hget, hb]
    · rw [switch_run m x y true (by rw [hget, hb]), if_pos rfl]
      have h1 := (hspec m.matrix).2.2
      rw [tf.2.2.1, except_map_ok] at h1
      exact h1
    · have hget1 : (updateCell m i j (sfV d (m.matrix i j))).get x y = .ok false := by
        have h2 := (hspec (updateCell m i j (sfV d (m.matrix i j))).matrix).1
        rw [hm1, tf2.1, tf.2.2.2.2.2.2] at h2
        exact h2
      rw [switch_run _ x y false hget1, if_neg (by simp)]
      have h3 := (hspec (updateCell m i j (sfV d (m.matrix i j))).matrix).2.1
      rw [hm1, tf2.2.1, except_map_ok] at h3
      exact h3
    · have h4 := (hspec (updateCell (updateCell m i j (sfV d (m.matrix i j))) i j
        (stV d (sfV d (m.matrix i j)))).matrix).1
      rw [hm2, tf3.1, tf2.2.2.2.2.2.1] at h4
      exact h4
  · have hb' : decV d (m.matrix i j) = false := by
      cases h : decV d (m.matrix i j)
      · rfl
      · exact absurd h hb
    have hm1 : (updateCell m i j (stV d (m.matrix i j))).matrix i j
        = stV d (m.matrix i j) := by simp [updateCell]
    have tf2 := table_facts d hd (stV d (m.matrix i j)) tf.2.2.2.1
    have hm2 : (updateCell (updateCell m i j (stV d (m.matrix i j))) i j
        (sfV d (stV d (m.matrix i j)))).matrix i j
        = sfV d (stV d (m.matrix i j)) := by simp [updateCell]
    have tf3 := table_facts d hd (sfV d (stV d (m.matrix i j))) tf2.2.2.2.2.1
    refine ⟨false, updateCell m i j (stV d (m.matrix i j)),
      updateCell (updateCell m i j (stV d (m.matrix i j))) i j
        (sfV d (stV d (m.matrix i j))), ?_, ?_, ?_, ?_⟩
    · rw [hget, hb']
    · rw [switch_run m x y false (by rw [hget, hb']), if_neg (by simp)]
      have h1 := (hspec m.matrix).2.1
      rw [tf.2.1, except_map_ok] at h1
      exact h1
    · have hget1 : (updateCell m i j (stV d (m.matrix i j))).get x y = .ok true := by
        have h2 := (hspec (updateCell m i j (stV d (m.matrix i j))).matrix).1
        rw [hm1, tf2.1, tf.2.2.2.2.2.1] at h2
        exact h2
      rw [switch_run _ x y true hget1, if_pos rfl]
      have h3 := (hspec (updateCell m i j (stV d (m.matrix i j))).matrix).2.2
      rw [hm1, tf2.2.2.1, except_map_ok] at h3
      exact h3
    · have h4 := (hspec (updateCell (updateCell m i j (stV d (m.matrix i j))) i j
        (sfV d (stV d (m.matrix i j)))).matrix).1
      rw [hm2, tf3.1, tf2.2.2.2.2.2.2] at h4
      exact h4

/-- Claim C6: any coordinate with `x ≥ og_size` or `y ≥ og_size` makes `get`,
`set_true`, `set_false` and `switch` raise `OutOfBound`; the raise happens in
`__get_domain`, before any write, so in this state-passing embedding no new
state is produced and the packed store is unchanged. -/
theorem C6_out_of_range (m : CompactBoolMatrix) (x y : Int)
    (h : m.og_size ≤ x ∨ m.og_size ≤ y) :
    m.get x y = .error .outOfBound ∧ m.set_true x y = .error .outOfBound ∧
    m.set_false x y = .error .outOfBound ∧ m.switch x y = .error .outOfBound := by
  have hdom : m.get_domain x y = .error .outOfBound := by
    unfold CompactBoolMatrix.get_domain
    rw [if_pos h]
  have hget : m.get x y = .error .outOfBound := by
    unfold CompactBoolMatrix.get
    rw [hdom, except_bind_error]
  refine ⟨hget, ?_, ?_, ?_⟩
  · unfold CompactBoolMatrix.set_true
    rw [hdom, except_bind_error]
  · unfold CompactBoolMatrix.set_false
    rw [hdom, except_bind_error]
  · unfold CompactBoolMatrix.switch
    rw [hget, except_bind_error]

end CompactBool

namespace CompactBool

lemma except_bind_ok_inv {α β : Type} {e : Except PyErr α} {f : α → Except PyErr β} {b : β}
    (h : (e >>= f) = .ok b) : ∃ a, e = .ok a ∧ f a = .ok b := by
  cases e with
  | error err => rw [except_bind_error] at h; exact absurd h (fun hh => Except.noConfusion hh)
  | ok a => rw [except_bind_ok] at h; exact ⟨a, rfl, h⟩

lemma tableLookup_ok_mem {α : Type} {t : List α} {v : Nat} {a : α}
    (h : tableLookup t v = .ok a) : a ∈ t := by
  unfold tableLookup at h
  cases hg : t.get? v with
  | none => rw [hg] at h; exact absurd h (fun hh => Except.noConfusion hh)
  | some c =>
    rw [hg] at h
    have hca : c = a := Except.ok.inj h
    exact hca ▸ List.get?_mem hg

lemma write_ok_inv {m m' : CompactBoolMatrix} {i j : Int} {v : Nat}
    (h : m.write i j v = .ok m') : ∃ a b, m' = updateCell m a b v := by
  unfold CompactBoolMatrix.write at h
  obtain ⟨a, ha, h⟩ := except_bind_ok_inv h
  obtain ⟨b, hb, h⟩ := except_bind_ok_inv h
  rw [except_pure] at h
  exact ⟨a, b, (Except.ok.inj h).symm⟩

lemma set_true_ok_inv {m m' : CompactBoolMatrix} {x y : Int}
    (h : m.set_true x y = .ok m') :
    ∃ d a b v, d < 4 ∧ v ∈ stT d ∧ m' = updateCell m a b v := by
  unfold CompactBoolMatrix.set_true at h
  obtain ⟨dom, hdom, h⟩ := except_bind_ok_inv h
  split_ifs at h with h0 h1 h2
  · obtain ⟨val, hval, h⟩ := except_bind_ok_inv h
    obtain ⟨v, hv, h⟩ := except_bind_ok_inv h
    obtain ⟨a, b, rfl⟩ := write_ok_inv h
    exact ⟨0, a, b, v, by omega, tableLookup_ok_mem hv, rfl⟩
  · obtain ⟨val, hval, h⟩ := except_bind_ok_inv h
    obtain ⟨v, hv, h⟩ := except_bind_ok_inv h
    obtain ⟨a, b, rfl⟩ := write_ok_inv h
    exact ⟨1, a, b, v, by omega, tableLookup_ok_mem hv, rfl⟩
  · obtain ⟨val, hval, h⟩ := except_bind_ok_inv h
    obtain ⟨v, hv, h⟩ := except_bind_ok_inv h
    obtain ⟨a, b, rfl⟩ := write_ok_inv h
    exact ⟨2, a, b, v, by omega, tableLookup_ok_mem hv, rfl⟩
  · obtain ⟨val, hval, h⟩ := except_bind_ok_inv h
    obtain ⟨v, hv, h⟩ := except_bind_ok_inv h
    obtain ⟨a, b, rfl⟩ := write_ok_inv h
    exact ⟨3, a, b, v, by omega, tableLookup_ok_mem hv, rfl⟩

lemma set_false_ok_inv {m m' : CompactBoolMatrix} {x y : Int}
    (h : m.set_false x y = .ok m') :
    ∃ d a b v, d < 4 ∧ v ∈ sfT d ∧ m' = updateCell m a b v := by
  unfold CompactBoolMatrix.set_false at h
  obtain ⟨dom, hdom, h⟩ := except_bind_ok_inv h
  split_ifs at h with h0 h1 h2
  · obtain ⟨val, hval, h⟩ := except_bind_ok_inv h
    obtain ⟨v, hv, h⟩ := except_bind_ok_inv h
    obtain ⟨a, b, rfl⟩ := write_ok_inv h
    exact ⟨0, a, b, v, by omega, tableLookup_ok_mem hv, rfl⟩
  · obtain ⟨val, hval, h⟩ := except_bind_ok_inv h
    obtain ⟨v, hv, h⟩ := except_bind_ok_inv h
    obtain ⟨a, b, rfl⟩ := write_ok_inv h
    exact ⟨1, a, b, v, by omega, tableLookup_ok_mem hv, rfl⟩
  · obtain ⟨val, hval, h⟩ := except_bind_ok_inv h
    obtain ⟨v, hv, h⟩ := except_bind_ok_inv h
    obtain ⟨a, b, rfl⟩ := write_ok_inv h
    exact ⟨2, a, b, v, by omega, tableLookup_ok_mem hv, rfl⟩
  · obtain ⟨val, hval, h⟩ := except_bind_ok_inv h
    obtain ⟨v, hv, h⟩ := except_bind_ok_inv h
    obtain ⟨a, b, rfl⟩ := write_ok_inv h
    exact ⟨3, a, b, v, by omega, tableLookup_ok_mem hv, rfl⟩

lemma switch_ok_inv {m m' : CompactBoolMatrix} {x y : Int}
    (h : m.switch x y = .ok m') :
    m.set_false x y = .ok m' ∨ m.set_true x y = .ok m' := by
  unfold CompactBoolMatrix.switch at h
  obtain ⟨b, hb, h⟩ := except_bind_ok_inv h
  cases b
  · right
    rw [if_neg (by simp)] at h
    exact h
  · left
    rw [if_pos rfl] at h
    exact h

lemma init_ok_inv {size : Int} {m : CompactBoolMatrix}
    (h : CompactBoolMatrix.init size = .ok m) :
    m = ⟨size, (ceilHalf size).toNat, fun _ _ => 0⟩ ∧ 0 ≤ ceilHalf size := by
  unfold CompactBoolMatrix.init at h
  split_ifs at h with hlt
  exact ⟨(Except.ok.inj h).symm, by omega⟩

lemma storeWF_updateCell {m : CompactBoolMatrix} {a b v : Nat}
    (hwf : StoreWF m) (hv : v ≤ 15) : StoreWF (updateCell m a b v) := by
  intro p q
  unfold updateCell
  dsimp only
  split
  · exact hv
  · exact hwf p q

lemma reachable_storeWF {m : CompactBoolMatrix} (h : Reachable m) : StoreWF m := by
  induction h with
  | init size mm hm =>
    obtain ⟨rfl, -⟩ := init_ok_inv hm
    intro p q
    dsimp only
    omega
  | set_true mm x y m' hr hst ih =>
    obtain ⟨d, a, b, v, hd, hv, rfl⟩ := set_true_ok_inv hst
    exact storeWF_updateCell ih (st_mem_le d hd v hv)
  | set_false mm x y m' hr hsf ih =>
    obtain ⟨d, a, b, v, hd, hv, rfl⟩ := set_false_ok_inv hsf
    exact storeWF_updateCell ih (sf_mem_le d hd v hv)
  | switch mm x y m' hr hsw ih =>
    rcases switch_ok_inv hsw with hcase | hcase
    · obtain ⟨d, a, b, v, hd, hv, rfl⟩ := set_false_ok_inv hcase
      exact storeWF_updateCell ih (sf_mem_le d hd v hv)
    · obtain ⟨d, a, b, v, hd, hv, rfl⟩ := set_true_ok_inv hcase
      exact storeWF_updateCell ih (st_mem_le d hd v hv)
  | all_true mm hr ih =>
    intro p q
    unfold CompactBoolMatrix.all_true
    dsimp only
    split
    · omega
    · exact ih p q
  | all_false mm hr ih =>
    intro p q
    unfold CompactBoolMatrix.all_false
    dsimp only
    split
    · omega
    · exact ih p q

lemma ceilHalf_ediv (n : Int) : ceilHalf n = (n + 1) / 2 :=
  Int.fdiv_eq_ediv _ (by omega)

lemma reachable_size {m : CompactBoolMatrix} (h : Reachable m) :
    m.og_size ≤ 2 * (m.new_size : Int) := by
  induction h with
  | init size mm hm =>
    obtain ⟨rfl, hpos⟩ := init_ok_inv hm
    have hb := ceilHalf_ediv size
    dsimp only
    omega
  | set_true mm x y m' hr hst ih =>
    obtain ⟨d, a, b, v, hd, hv, rfl⟩ := set_true_ok_inv hst
    exact ih
  | set_false mm x y m' hr hsf ih =>
    obtain ⟨d, a, b, v, hd, hv, rfl⟩ := set_false_ok_inv hsf
    exact ih
  | switch mm x y m' hr hsw ih =>
    rcases switch_ok_inv hsw with hcase | hcase
    · obtain ⟨d, a, b, v, hd, hv, rfl⟩ := set_false_ok_inv hcase
      exact ih
    · obtain ⟨d, a, b, v, hd, hv, rfl⟩ := set_true_ok_inv hcase
      exact ih
  | all_true mm hr ih => exact ih
  | all_false mm hr ih => exact ih

/-- Claim C9: every matrix state reachable from construction by the public
operations has all packed cell values in `[0, 15]`. -/
theorem C9_packed_invariant (m : CompactBoolMatrix) (h : Reachable m) : StoreWF m :=
  reachable_storeWF h

/-- Witness for C9 at the freshly constructed size-1 matrix. -/
theorem C9_packed_invariant_witness :
    Reachable (⟨1, 1, fun _ _ => 0⟩ : CompactBoolMatrix) ∧
    StoreWF (⟨1, 1, fun _ _ => 0⟩ : CompactBoolMatrix) :=
  ⟨Reachable.init 1 _ rfl,
   C9_packed_invariant _ (Reachable.init 1 _ rfl)⟩

end CompactBool

namespace CompactBool

/-- Claim C5 (amended): construction performs no size validation and never
signals an InvalidSize condition.  For size 0 or -1 (where `ceil(size/2) = 0`)
a matrix object is created with packed size 0; only for size ≤ -2 does the
call fail, and then with the ctypes negative-array-length `ValueError`. -/
theorem C5_no_size_validation (size : Int) (h : size ≤ 0) :
    (-1 ≤ size → CompactBoolMatrix.init size = .ok ⟨size, 0, fun _ _ => 0⟩) ∧
    (size ≤ -2 → CompactBoolMatrix.init size = .error .valueError) := by
  have hch := ceilHalf_ediv size
  constructor
  · intro hge
    have hc : ceilHalf size = 0 := by omega
    unfold CompactBoolMatrix.init
    rw [hc]
    rw [if_neg (by omega)]
    rfl
  · intro hle
    have hc : ceilHalf size < 0 := by omega
    unfold CompactBoolMatrix.init
    rw [if_pos hc]

/-- Claim C5 counterexample: size 0 is non-positive, yet construction succeeds
with no error of any kind — a matrix object (packed size 0) is created. -/
theorem C5_size_zero_succeeds :
    CompactBoolMatrix.init 0 = .ok ⟨0, 0, fun _ _ => 0⟩ := rfl

/-- Witness for C5 (amended) at size 0. -/
theorem C5_no_size_validation_witness :
    ((0 : Int) ≤ 0) ∧
    ((-1 ≤ (0 : Int) → CompactBoolMatrix.init 0 = .ok ⟨0, 0, fun _ _ => 0⟩) ∧
     ((0 : Int) ≤ -2 → CompactBoolMatrix.init 0 = .error .valueError)) :=
  ⟨by decide, C5_no_size_validation 0 (by decide)⟩

/-- Claim C1 is violated by the code: in a size-4 matrix (packed size 2) all
four domains are addressable at packed coordinate (0,0) — its logical cells
are (0,0), (2,0), (0,2) and (2,2) — yet `set_true(2, 0)`, acting on domain 1's
logical cell, changes `get(0, 2)`, domain 2's logical cell, from false to
true: `__get_domain` misroutes both coordinates to domain 3 through its strict
comparisons and the negative packed index wraps onto packed cell (0,0). -/
theorem C1_cross_domain_interference :
    ((CompactBoolMatrix.init 4).bind fun m =>
      (m.get 0 2).bind fun b0 =>
      (m.set_true 2 0).bind fun m1 =>
      (m1.get 0 2).map fun b1 => (b0, b1)) = .ok (false, true) := rfl

/-- Claim C2 is violated by the code: with size 5 (packed size 3) the
coordinate (3, 0) has x ≥ packed_size and y < packed_size, so the claim
assigns domain 1, but `__get_domain` tests the strict `x > s > y` and falls
through to domain 3. -/
theorem C2_domain_boundary_mismatch :
    ((CompactBoolMatrix.init 5).bind fun m => m.get_domain 3 0) = .ok 3 ∧
    (3 : Nat) ≠ 1 := ⟨rfl, by decide⟩

/-- Claim C4: the `__main__` demo on a size-5 matrix yields the dense plus
shape — `get(x, y)` is true exactly when x = 2 or y = 2. -/
theorem C4_demo_plus_shape :
    demoMat.bind CompactBoolMatrix.compact_to_normal =
      .ok ((List.range 5).map fun x => (List.range 5).map fun y =>
        decide (x = 2 ∨ y = 2)) := rfl

/-- Claim C10: the bounds check rejects only coordinates ≥ og_size.  A
negative coordinate passes it, and reads/writes the storage slot of a
different cell through negative-index wraparound: on a fresh size-4 matrix,
`set_true(-1, 0)` succeeds and flips `get(1, 0)` — cell (1, 0)'s slot — from
false to true, and `set_false` and `switch` at (-1, 0) also succeed. -/
theorem C10_negative_wraparound :
    (∀ (m : CompactBoolMatrix) (x y : Int), x < m.og_size → y < m.og_size →
      ∃ d, m.get_domain x y = .ok d) ∧
    ((CompactBoolMatrix.init 4).bind fun m =>
      (m.get 1 0).bind fun b0 =>
      (m.set_true (-1) 0).bind fun m1 =>
      (m1.get 1 0).map fun b1 => (b0, b1)) = .ok (false, true) ∧
    ((CompactBoolMatrix.init 4).bind fun m =>
      (m.set_false (-1) 0).bind fun m1 =>
      (m1.switch (-1) 0).bind fun m2 =>
      m2.get (-1) 0) = .ok true := by
  refine ⟨?_, rfl, rfl⟩
  intro m x y hx hy
  unfold CompactBoolMatrix.get_domain
  rw [if_neg (by omega)]
  split_ifs <;> exact ⟨_, rfl⟩

/-- Concrete size-4 matrix with an all-zero packed store, used by the
witnesses below. -/
def w4 : CompactBoolMatrix := ⟨4, 2, fun _ _ => 0⟩

/-- Witness for C10's universally quantified part at a concrete matrix and a
negative coordinate. -/
theorem C10_negative_wraparound_witness :
    ((-1 : Int) < w4.og_size ∧ (0 : Int) < w4.og_size) ∧
    ∃ d, w4.get_domain (-1) 0 = .ok d :=
  ⟨⟨by decide, by decide⟩,
   C10_negative_wraparound.1 w4 (-1) 0 (by decide) (by decide)⟩

/-- Witness for C3 at the fresh size-4 matrix and coordinate (3, 1), which
lands in domain 1. -/
theorem C3_set_then_get_witness :
    (StoreWF w4 ∧ w4.og_size ≤ 2 * (w4.new_size : Int) ∧
     (0 : Int) ≤ 3 ∧ (3 : Int) < w4.og_size ∧
     (0 : Int) ≤ 1 ∧ (1 : Int) < w4.og_size) ∧
    ((∃ m1, w4.set_true 3 1 = .ok m1 ∧ m1.get 3 1 = .ok true) ∧
     (∃ m1, w4.set_false 3 1 = .ok m1 ∧ m1.get 3 1 = .ok false)) :=
  ⟨⟨fun _ _ => Nat.zero_le 15, by decide, by decide, by decide, by decide, by decide⟩,
   C3_set_then_get w4 3 1 (fun _ _ => Nat.zero_le 15) (by decide)
     (by decide) (by decide) (by decide) (by decide)⟩

/-- Witness for C7 at the size-4 matrix and coordinate (2, 3). -/
theorem C7_fill_all_witness :
    (w4.og_size ≤ 2 * (w4.new_size : Int) ∧
     (0 : Int) ≤ 2 ∧ (2 : Int) < w4.og_size ∧
     (0 : Int) ≤ 3 ∧ (3 : Int) < w4.og_size) ∧
    (w4.all_true.get 2 3 = .ok true ∧ w4.all_false.get 2 3 = .ok false) :=
  ⟨⟨by decide, by decide, by decide, by decide, by decide⟩,
   C7_fill_all w4 2 3 (by decide) (by decide) (by decide) (by decide) (by decide)⟩

/-- Witness for C8 at the size-4 matrix and coordinate (0, 0). -/
theorem C8_toggle_twice_witness :
    (StoreWF w4 ∧ w4.og_size ≤ 2 * (w4.new_size : Int) ∧
     (0 : Int) ≤ 0 ∧ (0 : Int) < w4.og_size) ∧
    (∃ b m1 m2, w4.get 0 0 = .ok b ∧ w4.switch 0 0 = .ok m1 ∧
      m1.switch 0 0 = .ok m2 ∧ m2.get 0 0 = .ok b) :=
  ⟨⟨fun _ _ => Nat.zero_le 15, by decide, by decide, by decide⟩,
   C8_toggle_twice w4 0 0 (fun _ _ => Nat.zero_le 15) (by decide)
     (by decide) (by decide) (by decide) (by decide)⟩

/-- Witness for C6 at the size-4 matrix and the out-of-range coordinate
(5, 0). -/
theorem C6_out_of_range_witness :
    (w4.og_size ≤ 5 ∨ w4.og_size ≤ 0) ∧
    (w4.get 5 0 = .error .outOfBound ∧ w4.set_true 5 0 = .error .outOfBound ∧
     w4.set_false 5 0 = .error .outOfBound ∧ w4.switch 5 0 = .error .outOfBound) :=
  ⟨Or.inl (by decide), C6_out_of_range w4 5 0 (Or.inl (by decide))⟩

end CompactBool
